import Mathlib

/-!
Shallow embedding of the Groth16 prover CLI of gnark-plonky2-verifier.

Two source variants exist: the commitment-aware prover (`src/prover.go`)
and a simplified prover without commitment handling (`src/unnamed/part_000`).
Both share the same pipeline shape (build circuit, setup, optional contract
export, witness generation, proving, proof encoding, file write); they differ
in the `writeProof` encoder.  The encoders are embedded here as pure
functions over byte lists (a byte is a `Nat`, kept below 256 by the callers
that matter), with Go slice expressions modelled by a bounds-checked
`goSlice` that fails exactly when the Go expression would panic, and Go
`panic` modelled by `Except.error`.  The surrounding pipeline is embedded as
a function from an oracle environment (outcomes of the external gnark calls)
to a run result recording the stages entered, the diagnostic lines printed,
whether the contract file was created and whether the output proof file was
written.
-/

namespace GnarkProver

/-- Field-element byte width used by the encoder: `const fpSize = 4 * 8`. -/
def fpSize : Nat := 4 * 8

/-- Lowercase hexadecimal digit characters, as produced by Go's
`hex.EncodeToString` (its hextable). -/
def hexDigits : List Char := "0123456789abcdef".data

/-- The lowercase hex character for a value below 16. -/
def hexChar (n : Nat) : Char := hexDigits.getD n '0'

/-- The two lowercase hex characters encoding one byte, high nibble first. -/
def hexByte (b : Nat) : List Char := [hexChar (b % 256 / 16), hexChar (b % 16)]

/-- Hex characters of a byte list. -/
def hexChars (bs : List Nat) : List Char := (bs.map hexByte).flatten

/-- Go `hex.EncodeToString`: lowercase hex string of a byte slice. -/
def hexEncodeToString (bs : List Nat) : String := String.mk (hexChars bs)

/-- A field element rendered the way `writeProof` does:
`"0x" + hex.EncodeToString(bytes)`. -/
def ox (bs : List Nat) : String := "0x" ++ hexEncodeToString bs

/-- Numeric value of a lowercase hex digit (garbage on other characters). -/
def hexVal (c : Char) : Nat := hexDigits.indexOf c

/-- Horner-style accumulation of hex digits. -/
def parseHexAux (a : Nat) (cs : List Char) : Nat :=
  cs.foldl (fun x c => x * 16 + hexVal c) a

/-- Parse a hex string of the shape produced by `ox` back to a number,
dropping the two-character marker. -/
def parseHex0x (s : String) : Nat := parseHexAux 0 (s.data.drop 2)

/-- Big-endian byte encoding of a natural number, fixed width `w`. -/
def natToBeBytes : Nat → Nat → List Nat
  | 0, _ => []
  | w + 1, x => natToBeBytes w (x / 256) ++ [x % 256]

/-- Big-endian value of a byte list, the semantics of Go's
`new(big.Int).SetBytes`. -/
def beBytesToNat (bs : List Nat) : Nat := bs.foldl (fun a b => a * 256 + b) 0

/-- Go slice expression `b[lo:hi]`: succeeds with the sub-list when the
bounds are in range, fails (Go panics) otherwise. -/
def goSlice (b : List Nat) (lo hi : Nat) : Except String (List Nat) :=
  if lo ≤ hi ∧ hi ≤ b.length then Except.ok ((b.drop lo).take (hi - lo))
  else Except.error "slice bounds out of range"

/-- Effectful map over a list, stopping at the first failure: the shape of
the Go `for` loops in `writeProof`, where an out-of-range slice panics at
the first offending index. -/
def mapE {α β : Type} (f : α → Except String β) : List α → Except String (List β)
  | [] => Except.ok []
  | a :: as =>
    match f a with
    | Except.error e => Except.error e
    | Except.ok b =>
      match mapE f as with
      | Except.error e => Except.error e
      | Except.ok bs => Except.ok (b :: bs)

/-- Output record of the commitment-aware prover (`Groth16Proof` in
`src/prover.go`). -/
structure Groth16Proof where
  proof : List String
  inputs : List String
  commitments : List String
  commitmentPok : List String
  deriving DecidableEq, Repr

/-- Output record of the simplified prover (`Groth16Proof` in
`src/unnamed/part_000`). -/
structure Groth16ProofSimple where
  proof : List String
  inputs : List String
  deriving DecidableEq, Repr

/-- The encoding core of `writeProof` in `src/prover.go` (lines 168-231),
from the two marshalled buffers onward.  `nbPublicInputs` is
`len(validPublicWitness.Vector())` and `vkNbPublicWitness` is
`vk.NbPublicWitness()`.  Each `Except.error` is a Go `panic`, which aborts
the function before any output is produced. -/
def encodeGroth16 (proofBytes bPublicWitness : List Nat)
    (nbPublicInputs vkNbPublicWitness : Nat) : Except String Groth16Proof :=
  let numOfCommitments : Int :=
    (vkNbPublicWitness : Int) - (nbPublicInputs : Int)
  match goSlice bPublicWitness 12 bPublicWitness.length with
  | Except.error e => Except.error e
  | Except.ok inputBytes =>
    if inputBytes.length % fpSize ≠ 0 then
      Except.error "inputBytes mod 32 !=0"
    else
      let nbInputs := inputBytes.length / fpSize
      if nbInputs ≠ nbPublicInputs then
        Except.error "nbInputs != nbPublicInputs"
      else
        match mapE (fun i =>
            Except.map ox (goSlice inputBytes (fpSize * i) (fpSize * (i + 1))))
            (List.range nbInputs) with
        | Except.error e => Except.error e
        | Except.ok inputs =>
          match mapE (fun i =>
              Except.map ox (goSlice proofBytes (fpSize * i) (fpSize * (i + 1))))
              (List.range 8) with
          | Except.error e => Except.error e
          | Except.ok proofs =>
            match goSlice proofBytes (fpSize * 8) (fpSize * 8 + 4) with
            | Except.error e => Except.error e
            | Except.ok cBytes =>
              let commitmentCount : Int := (beBytesToNat cBytes : Int)
              if commitmentCount ≠ numOfCommitments then
                Except.error "commitmentCount != .NbCommitments"
              else
                let cc := commitmentCount.toNat
                match mapE (fun i =>
                    Except.map ox (goSlice proofBytes
                      (fpSize * 8 + 4 + i * fpSize)
                      (fpSize * 8 + 4 + (i + 1) * fpSize)))
                    (List.range (2 * cc)) with
                | Except.error e => Except.error e
                | Except.ok commitments =>
                  match goSlice proofBytes
                      (fpSize * 8 + 4 + 2 * cc * fpSize)
                      (fpSize * 8 + 4 + 2 * cc * fpSize + fpSize),
                    goSlice proofBytes
                      (fpSize * 8 + 4 + 2 * cc * fpSize + fpSize)
                      (fpSize * 8 + 4 + 2 * cc * fpSize + 2 * fpSize) with
                  | Except.ok pok0, Except.ok pok1 =>
                    Except.ok
                      { proof := proofs, inputs := inputs,
                        commitments := commitments,
                        commitmentPok := [ox pok0, ox pok1] }
                  | Except.error e, _ => Except.error e
                  | _, Except.error e => Except.error e

/-- The encoding core of `writeProof` in `src/unnamed/part_000`
(lines 163-190): 8 proof elements, then the public-witness buffer with its
12 leading bytes cut off, with NO alignment check and NO comparison against
a declared public-input count; `nbInputs` is just integer division. -/
def encodeGroth16Simple (proofBytes bPublicWitness : List Nat) :
    Except String Groth16ProofSimple :=
  match mapE (fun i =>
      Except.map ox (goSlice proofBytes (i * fpSize) ((i + 1) * fpSize)))
      (List.range 8) with
  | Except.error e => Except.error e
  | Except.ok proofs =>
    match goSlice bPublicWitness 12 bPublicWitness.length with
    | Except.error e => Except.error e
    | Except.ok publicWitnessBytes =>
      let nbInputs := publicWitnessBytes.length / fpSize
      match mapE (fun i =>
          Except.map ox
            (goSlice publicWitnessBytes (i * fpSize) ((i + 1) * fpSize)))
          (List.range nbInputs) with
      | Except.error e => Except.error e
      | Except.ok inputs =>
        Except.ok { proof := proofs, inputs := inputs }

/-- Pipeline stages of the prover run, in the order the source enters them. -/
inductive Stage where
  | load
  | compile
  | setup
  | contractExport
  | witnessGen
  | prove
  | encode
  | persist
  deriving DecidableEq, Repr

/-- How a run terminates: `os.Exit(code)`, a Go `panic`, or normal return
from `main`. -/
inductive RunTerm where
  | exited (code : Nat)
  | panicked (msg : String)
  | finished
  deriving DecidableEq, Repr

/-- Oracle environment for the external gnark calls: the outcome each
external operation would have in this run.  The pipeline code under
verification decides what to do with each outcome. -/
structure ProverEnv where
  loadErr : Option String
  compileErr : Option String
  dummySetupErr : Option String
  setupErr : Option String
  realVkNbPublicWitness : Nat
  exportErr : Option String
  witnessErr : Option String
  proveErr : Option String
  publicErr : Option String
  nbPublicInputs : Nat
  marshalSolidityOk : Bool
  proofBytes : List Nat
  marshalBinaryErr : Option String
  pubWitnessBytes : List Nat
  jsonErr : Option String
  writeErr : Option String
  deriving DecidableEq, Repr

/-- Result of the `writeProof` stage of `src/prover.go`. -/
structure WriteResult where
  logs : List String
  written : Option Groth16Proof
  persistReached : Bool
  term : RunTerm
  deriving DecidableEq, Repr

/-- Result of a full prover run. -/
structure RunResult where
  stages : List Stage
  logs : List String
  contractFileCreated : Bool
  outFileWritten : Option Groth16Proof
  term : RunTerm
  deriving DecidableEq, Repr

/-- The `writeProof` function of `src/prover.go` (lines 167-253).
`vk` is the verifying-key interface value: `none` is the Go nil interface
(never assigned under dummy setup), `some k` a real key whose
`NbPublicWitness()` returns `k`.  `publicOk` records whether
`witness.Public()` succeeded (its error is discarded by the caller; on
failure the witness value is nil and `Vector()` panics).  Line order
follows the source: the public-witness vector length and
`vk.NbPublicWitness()` are evaluated first, then the proof is marshalled
(a failed type assertion merely prints and returns), then the public
witness is marshalled, then the encoding core runs, then JSON marshalling,
then the file write whose error is only printed. -/
def writeProofModel (vk : Option Nat) (publicOk : Bool) (env : ProverEnv) :
    WriteResult :=
  if ¬ publicOk then
    { logs := [], written := none, persistReached := false,
      term := RunTerm.panicked "nil witness vector" }
  else
    match vk with
    | none =>
      { logs := [], written := none, persistReached := false,
        term := RunTerm.panicked "nil verifying key" }
    | some k =>
      if ¬ env.marshalSolidityOk then
        { logs := ["Error marshalling proof"], written := none,
          persistReached := false, term := RunTerm.finished }
      else
        match env.marshalBinaryErr with
        | some _ =>
          { logs := ["Error marshalling public witness"], written := none,
            persistReached := false, term := RunTerm.finished }
        | none =>
          match encodeGroth16 env.proofBytes env.pubWitnessBytes
              env.nbPublicInputs k with
          | Except.error msg =>
            { logs := [], written := none, persistReached := false,
              term := RunTerm.panicked msg }
          | Except.ok data =>
            match env.jsonErr with
            | some e =>
              { logs := ["Error marshalling to JSON: " ++ e], written := none,
                persistReached := false, term := RunTerm.finished }
            | none =>
              match env.writeErr with
              | some e =>
                { logs := ["Error writing to file: " ++ e], written := none,
                  persistReached := true, term := RunTerm.finished }
              | none =>
                { logs := [], written := some data, persistReached := true,
                  term := RunTerm.finished }

/-- Assembling the run result once the encoding stage has run: the stages
up to and including encode, plus persist when the file write was reached. -/
def assembleRun (stagesSoFar : List Stage) (created : Bool) (w : WriteResult) :
    RunResult :=
  { stages := stagesSoFar ++ [Stage.witnessGen, Stage.prove, Stage.encode]
      ++ (if w.persistReached then [Stage.persist] else []),
    logs := w.logs, contractFileCreated := created,
    outFileWritten := w.written, term := w.term }

/-- The tail of `generateProof` from witness generation on (lines 151-163 of
`src/prover.go`), followed by `writeProof`.  The error of
`frontend.NewWitness` is DISCARDED by the source (`witness, _ :=`), so the
code always proceeds to `groth16.Prove`; a nil witness then makes the
external call fail via a nil dereference.  The error of `witness.Public()`
is likewise discarded. -/
def afterSetupModel (vk : Option Nat) (created : Bool) (env : ProverEnv)
    (stagesSoFar : List Stage) : RunResult :=
  if env.witnessErr.isSome then
    { stages := stagesSoFar ++ [Stage.witnessGen, Stage.prove],
      logs := [], contractFileCreated := created, outFileWritten := none,
      term := RunTerm.panicked "nil witness" }
  else
    match env.proveErr with
    | some e =>
      { stages := stagesSoFar ++ [Stage.witnessGen, Stage.prove],
        logs := [e], contractFileCreated := created, outFileWritten := none,
        term := RunTerm.exited 1 }
    | none =>
      assembleRun stagesSoFar created
        (writeProofModel vk env.publicErr.isNone env)

/-- The `runProver` pipeline of `src/prover.go` (lines 55-64), inlining
`buildCircuit` (66-108) and `generateProof` (111-163).  External file
reading failures surface as panics inside the loaders; compilation, setup,
contract-export and proving failures print and `os.Exit(1)`.  In dummy mode
`vk` is never assigned (stays the nil interface), and
`os.Create(outContract)` runs before `vk.ExportSolidity` is invoked, so
with a contract path configured the contract file is created and the export
call then panics on the nil interface. -/
def runProverModel (inDir outProof outContract : String)
    (profileCircuit dummySetup : Bool) (env : ProverEnv) : RunResult :=
  match env.loadErr with
  | some e =>
    { stages := [Stage.load], logs := [e], contractFileCreated := false,
      outFileWritten := none, term := RunTerm.panicked e }
  | none =>
    match env.compileErr with
    | some e =>
      { stages := [Stage.load, Stage.compile],
        logs := ["error in building circuit " ++ e],
        contractFileCreated := false, outFileWritten := none,
        term := RunTerm.exited 1 }
    | none =>
      match (if dummySetup then env.dummySetupErr else env.setupErr) with
      | some e =>
        { stages := [Stage.load, Stage.compile, Stage.load, Stage.setup],
          logs := [e], contractFileCreated := false,
          outFileWritten := none, term := RunTerm.exited 1 }
      | none =>
        if outContract ≠ "" then
          match (if dummySetup then none
              else some env.realVkNbPublicWitness : Option Nat) with
          | none =>
            { stages := [Stage.load, Stage.compile, Stage.load, Stage.setup,
                Stage.contractExport], logs := [],
              contractFileCreated := true, outFileWritten := none,
              term := RunTerm.panicked "nil verifying key" }
          | some _ =>
            match env.exportErr with
            | some e =>
              { stages := [Stage.load, Stage.compile, Stage.load, Stage.setup,
                  Stage.contractExport], logs := [e],
                contractFileCreated := true, outFileWritten := none,
                term := RunTerm.exited 1 }
            | none =>
              afterSetupModel
                (if dummySetup then none else some env.realVkNbPublicWitness)
                true env [Stage.load, Stage.compile, Stage.load, Stage.setup,
                  Stage.contractExport]
        else
          afterSetupModel
            (if dummySetup then none else some env.realVkNbPublicWitness)
            false env [Stage.load, Stage.compile, Stage.load, Stage.setup]

/-- The `main` function (lines 36-52): flag parsing and banner printing
only — the paths are NOT validated before `runProver` is invoked. -/
def mainModel (inDir outProof outContract : String)
    (profileCircuit dummySetup : Bool) (env : ProverEnv) : RunResult :=
  runProverModel inDir outProof outContract profileCircuit dummySetup env

/-! Helper lemmas about the byte and hex primitives. -/

theorem natToBeBytes_length (w x : Nat) : (natToBeBytes w x).length = w := by
  induction w generalizing x with
  | zero => rfl
  | succ w ih => simp [natToBeBytes, ih]

theorem natToBeBytes_lt (w x : Nat) : ∀ b ∈ natToBeBytes w x, b < 256 := by
  induction w generalizing x with
  | zero => intro b hb; simp [natToBeBytes] at hb
  | succ w ih =>
    intro b hb
    simp only [natToBeBytes, List.mem_append, List.mem_singleton] at hb
    rcases hb with hb | hb
    · exact ih _ b hb
    · subst hb; exact Nat.mod_lt _ (by norm_num)

theorem beBytesToNat_foldl (bs : List Nat) :
    ∀ a, bs.foldl (fun x b => x * 256 + b) a =
      a * 256 ^ bs.length + beBytesToNat bs := by
  induction bs with
  | nil => intro a; simp [beBytesToNat]
  | cons b bs ih =>
    intro a
    simp only [beBytesToNat, List.foldl_cons, List.length_cons]
    rw [ih (a * 256 + b), ih ((0 : Nat) * 256 + b)]
    ring

theorem beBytesToNat_cons (b : Nat) (bs : List Nat) :
    beBytesToNat (b :: bs) = b * 256 ^ bs.length + beBytesToNat bs := by
  have h : beBytesToNat (b :: bs) =
      (0 * 256 + b) * 256 ^ bs.length + beBytesToNat bs := by
    have h2 := beBytesToNat_foldl bs (0 * 256 + b)
    simpa [beBytesToNat] using h2
  rw [h]; ring

theorem beBytesToNat_append_one (l : List Nat) (b : Nat) :
    beBytesToNat (l ++ [b]) = beBytesToNat l * 256 + b := by
  simp [beBytesToNat, List.foldl_append]

theorem beBytesToNat_natToBeBytes (w x : Nat) :
    beBytesToNat (natToBeBytes w x) = x % 256 ^ w := by
  induction w generalizing x with
  | zero => simp [natToBeBytes, beBytesToNat, Nat.mod_one]
  | succ w ih =>
    rw [natToBeBytes, beBytesToNat_append_one, ih]
    have h : (256 : Nat) ^ (w + 1) = 256 * 256 ^ w := by ring
    rw [h, Nat.mod_mul]
    ring

theorem hexVal_hexChar (d : Nat) (h : d < 16) : hexVal (hexChar d) = d := by
  interval_cases d <;> rfl

theorem parseHexAux_append (a : Nat) (l1 l2 : List Char) :
    parseHexAux a (l1 ++ l2) = parseHexAux (parseHexAux a l1) l2 := by
  simp [parseHexAux, List.foldl_append]

theorem parseHexAux_hexByte (a b : Nat) (hb : b < 256) :
    parseHexAux a (hexByte b) = a * 256 + b := by
  have h1 : b % 256 = b := Nat.mod_eq_of_lt hb
  have h2 : b / 16 < 16 := by omega
  have h3 : b % 16 < 16 := Nat.mod_lt _ (by norm_num)
  simp only [hexByte, parseHexAux, List.foldl_cons, List.foldl_nil, h1,
    hexVal_hexChar _ h2, hexVal_hexChar _ h3]
  omega

theorem hexChars_cons (b : Nat) (bs : List Nat) :
    hexChars (b :: bs) = hexByte b ++ hexChars bs := by
  simp [hexChars]

theorem parseHexAux_hexChars (bs : List Nat) (hlt : ∀ b ∈ bs, b < 256) :
    ∀ a, parseHexAux a (hexChars bs) = a * 256 ^ bs.length + beBytesToNat bs := by
  induction bs with
  | nil => intro a; simp [hexChars, parseHexAux, beBytesToNat]
  | cons b bs ih =>
    intro a
    have hb : b < 256 := hlt b (by simp)
    have hrest : ∀ x ∈ bs, x < 256 := fun x hx => hlt x (by simp [hx])
    rw [hexChars_cons, parseHexAux_append, parseHexAux_hexByte _ _ hb,
      ih hrest, beBytesToNat_cons]
    simp only [List.length_cons]
    ring

theorem ox_data (bs : List Nat) : (ox bs).data = '0' :: 'x' :: hexChars bs := rfl

theorem parseHex0x_ox (bs : List Nat) (hlt : ∀ b ∈ bs, b < 256) :
    parseHex0x (ox bs) = beBytesToNat bs := by
  rw [parseHex0x, ox_data]
  simp only [List.drop_succ_cons, List.drop_zero]
  rw [parseHexAux_hexChars bs hlt 0]
  ring

theorem parseHex0x_ox_natToBeBytes (x : Nat) (h : x < 256 ^ 32) :
    parseHex0x (ox (natToBeBytes 32 x)) = x := by
  rw [parseHex0x_ox _ (natToBeBytes_lt 32 x), beBytesToNat_natToBeBytes]
  exact Nat.mod_eq_of_lt h

/-- Decidable check that a character is a lowercase hex digit. -/
def isLowerHexDigit (c : Char) : Bool := hexDigits.contains c

theorem isLowerHexDigit_hexChar (n : Nat) : isLowerHexDigit (hexChar n) = true := by
  by_cases h : n < 16
  · interval_cases n <;> rfl
  · have hd : hexChar n = '0' := by
      rw [hexChar]; exact List.getD_eq_default _ _ (by simp [hexDigits]; omega)
    rw [hd]; rfl

theorem mem_hexChars_isLowerHexDigit (bs : List Nat) (c : Char)
    (hc : c ∈ hexChars bs) : isLowerHexDigit c = true := by
  simp only [hexChars, List.mem_flatten, List.mem_map] at hc
  obtain ⟨l, ⟨b, _, rfl⟩, hcl⟩ := hc
  simp only [hexByte, List.mem_cons, List.mem_singleton] at hcl
  rcases hcl with rfl | rfl | h
  · exact isLowerHexDigit_hexChar _
  · exact isLowerHexDigit_hexChar _
  · exact absurd h (List.not_mem_nil c)

/-- The shape every rendered field element has: the two marker characters
then only lowercase hex digits. -/
theorem ox_shape (bs : List Nat) :
    (ox bs).data.take 2 = ['0', 'x'] ∧
      ∀ c ∈ (ox bs).data.drop 2, isLowerHexDigit c = true := by
  rw [ox_data]
  exact ⟨rfl, fun c hc => mem_hexChars_isLowerHexDigit bs c (by simpa using hc)⟩

/-! Helper lemmas about `goSlice` and `mapE`. -/

theorem goSlice_eq_ok (b : List Nat) (lo hi : Nat) (h1 : lo ≤ hi)
    (h2 : hi ≤ b.length) :
    goSlice b lo hi = Except.ok ((b.drop lo).take (hi - lo)) := by
  simp [goSlice, h1, h2]

theorem goSlice_tail (b : List Nat) (lo : Nat) (h : lo ≤ b.length) :
    goSlice b lo b.length = Except.ok (b.drop lo) := by
  rw [goSlice_eq_ok b lo b.length h le_rfl]
  congr 1
  conv_lhs => rw [show b.length - lo = (b.drop lo).length from (List.length_drop lo b).symm]
  exact List.take_length _

theorem goSlice_fail (b : List Nat) (lo hi : Nat) (h : b.length < hi) :
    goSlice b lo hi = Except.error "slice bounds out of range" := by
  have : ¬ (lo ≤ hi ∧ hi ≤ b.length) := by omega
  simp [goSlice, this]

theorem mapE_eq_map {α β : Type} (f : α → Except String β) (g : α → β)
    (l : List α) (h : ∀ a ∈ l, f a = Except.ok (g a)) :
    mapE f l = Except.ok (l.map g) := by
  induction l with
  | nil => rfl
  | cons a as ih =>
    have ha := h a (by simp)
    have hrec := ih (fun x hx => h x (by simp [hx]))
    simp [mapE, ha, hrec]

theorem mapE_ok_length {α β : Type} (f : α → Except String β) (l : List α)
    (ys : List β) (h : mapE f l = Except.ok ys) : ys.length = l.length := by
  induction l generalizing ys with
  | nil => simp only [mapE] at h; cases h; rfl
  | cons a as ih =>
    simp only [mapE] at h
    cases hfa : f a <;> rw [hfa] at h
    · simp at h
    · cases hrec : mapE f as <;> rw [hrec] at h
      · simp at h
      · simp only [Except.ok.injEq] at h
        subst h
        simp [ih _ hrec]

theorem mapE_ok_getElem {α β : Type} (f : α → Except String β) (l : List α)
    (ys : List β) (h : mapE f l = Except.ok ys) (i : Nat) (hi : i < l.length)
    (hi2 : i < ys.length) : f (l[i]) = Except.ok (ys[i]) := by
  induction l generalizing ys i with
  | nil => simp at hi
  | cons a as ih =>
    simp only [mapE] at h
    cases hfa : f a with
    | error e => rw [hfa] at h; simp at h
    | ok b =>
      rw [hfa] at h
      cases hrec : mapE f as with
      | error e => rw [hrec] at h; simp at h
      | ok bs =>
        rw [hrec] at h
        simp only [Except.ok.injEq] at h
        subst h
        cases i with
        | zero => simpa using hfa
        | succ j =>
          have hj : j < as.length := by simpa using hi
          have hlen := mapE_ok_length f as bs hrec
          have hj2 : j < bs.length := by omega
          simpa using ih bs hrec j hj hj2

/-- Extracting the i-th fixed-width chunk of a flattened list of
fixed-width blocks returns the i-th block. -/
theorem flatten_map_chunk {f : Nat → List Nat} (w : Nat)
    (hw : ∀ x, (f x).length = w) (v : List Nat) :
    ∀ i, (h : i < v.length) →
      (((v.map f).flatten.drop (w * i)).take w) = f v[i] := by
  induction v with
  | nil => intro i h; simp at h
  | cons x xs ih =>
    intro i h
    cases i with
    | zero =>
      simp only [List.map_cons, List.flatten_cons, Nat.mul_zero,
        List.drop_zero, List.getElem_cons_zero]
      exact List.take_left' (hw x)
    | succ j =>
      have hj : j < xs.length := by simpa using h
      have hdrop : (((x :: xs).map f).flatten).drop (w * (j + 1)) =
          ((xs.map f).flatten).drop (w * j) := by
        simp only [List.map_cons, List.flatten_cons]
        rw [show w * (j + 1) = (f x).length + w * j by rw [hw x]; ring]
        exact List.drop_append (w * j)
      rw [hdrop]
      simpa using ih j hj

/-! The central constructive lemma: on a well-shaped buffer the
commitment-aware encoder succeeds and produces exactly the slices the
source reads. -/

/-- On a proof buffer made of 256 bytes of A/B/C coordinates, the 4-byte
big-endian encoding of the commitment count c, and a tail holding the 2c
commitment coordinates plus the proof-of-knowledge pair, with a
public-witness buffer of exactly 12 + 32n bytes and a verifying key
declaring n + c public witnesses, the encoder succeeds and emits exactly
the 32-byte slices of the source layout. -/
theorem encodeGroth16_success (front cnt tail pub : List Nat) (n c k : Nat)
    (hfront : front.length = 256)
    (hcnt : cnt = natToBeBytes 4 c) (hc : c < 256 ^ 4)
    (hpub : pub.length = 12 + 32 * n)
    (hk : k = n + c)
    (htail : 64 * c + 64 ≤ tail.length) :
    encodeGroth16 (front ++ cnt ++ tail) pub n k = Except.ok
      { proof := (List.range 8).map (fun i => ox ((front.drop (32 * i)).take 32)),
        inputs := (List.range n).map (fun i => ox (((pub.drop 12).drop (32 * i)).take 32)),
        commitments := (List.range (2 * c)).map (fun i => ox ((tail.drop (32 * i)).take 32)),
        commitmentPok := [ox ((tail.drop (64 * c)).take 32),
                          ox ((tail.drop (64 * c + 32)).take 32)] } := by
  have hfp : fpSize = 32 := rfl
  have hcntlen : cnt.length = 4 := by rw [hcnt]; exact natToBeBytes_length 4 c
  set pb := front ++ cnt ++ tail with hpbdef
  have hassoc : pb = front ++ (cnt ++ tail) := by rw [hpbdef, List.append_assoc]
  have hpblen : pb.length = 260 + tail.length := by
    rw [hpbdef]; simp [hfront, hcntlen]; omega
  have h12 : (12 : Nat) ≤ pub.length := by omega
  have hslice1 : goSlice pub 12 pub.length = Except.ok (pub.drop 12) :=
    goSlice_tail pub 12 h12
  have hbodylen : (pub.drop 12).length = 32 * n := by
    rw [List.length_drop]; omega
  have hinputs : mapE (fun i => Except.map ox
      (goSlice (pub.drop 12) (fpSize * i) (fpSize * (i + 1)))) (List.range n) =
      Except.ok ((List.range n).map
        (fun i => ox (((pub.drop 12).drop (32 * i)).take 32))) := by
    apply mapE_eq_map
    intro i hi
    have hi' : i < n := List.mem_range.mp hi
    have hb2 : fpSize * (i + 1) ≤ (pub.drop 12).length := by
      rw [hbodylen, hfp]; omega
    rw [goSlice_eq_ok _ _ _ (by rw [hfp]; omega) hb2, hfp,
      show 32 * (i + 1) - 32 * i = 32 from by omega]
    rfl
  have hproofs : mapE (fun i => Except.map ox
      (goSlice pb (fpSize * i) (fpSize * (i + 1)))) (List.range 8) =
      Except.ok ((List.range 8).map
        (fun i => ox ((front.drop (32 * i)).take 32))) := by
    apply mapE_eq_map
    intro i hi
    have hi' : i < 8 := List.mem_range.mp hi
    have hb2 : fpSize * (i + 1) ≤ pb.length := by rw [hpblen, hfp]; omega
    rw [goSlice_eq_ok _ _ _ (by rw [hfp]; omega) hb2, hfp,
      show 32 * (i + 1) - 32 * i = 32 from by omega]
    have h1 : pb.drop (32 * i) = front.drop (32 * i) ++ (cnt ++ tail) := by
      rw [hassoc]
      exact List.drop_append_of_le_length (by omega)
    rw [h1, List.take_append_of_le_length (by rw [List.length_drop, hfront]; omega)]
    rfl
  have hcb : goSlice pb (fpSize * 8) (fpSize * 8 + 4) = Except.ok cnt := by
    rw [goSlice_eq_ok _ _ _ (by omega) (by rw [hpblen, hfp]; omega), hfp]
    rw [show 32 * 8 + 4 - 32 * 8 = 4 from by omega]
    have h1 : pb.drop (32 * 8) = cnt ++ tail := by
      rw [hassoc]
      rw [show (32 * 8 : Nat) = front.length from by rw [hfront]]
      exact List.drop_left front (cnt ++ tail)
    rw [h1, List.take_left' hcntlen]
  have hbe : beBytesToNat cnt = c := by
    rw [hcnt, beBytesToNat_natToBeBytes]; exact Nat.mod_eq_of_lt hc
  have hcomm : mapE (fun i => Except.map ox
      (goSlice pb (fpSize * 8 + 4 + i * fpSize) (fpSize * 8 + 4 + (i + 1) * fpSize)))
      (List.range (2 * c)) =
      Except.ok ((List.range (2 * c)).map
        (fun i => ox ((tail.drop (32 * i)).take 32))) := by
    apply mapE_eq_map
    intro i hi
    have hi' : i < 2 * c := List.mem_range.mp hi
    have hb2 : fpSize * 8 + 4 + (i + 1) * fpSize ≤ pb.length := by
      rw [hpblen, hfp]; omega
    rw [goSlice_eq_ok _ _ _ (by rw [hfp]; omega) hb2, hfp,
      show 32 * 8 + 4 + (i + 1) * 32 - (32 * 8 + 4 + i * 32) = 32 from by omega]
    have h1 : pb.drop (32 * 8 + 4 + i * 32) = tail.drop (32 * i) := by
      have h2 : (32 * 8 + 4 + i * 32 : Nat) = (front ++ cnt).length + 32 * i := by
        simp [hfront, hcntlen]; omega
      rw [hpbdef, h2]
      exact List.drop_append (32 * i)
    rw [h1]
    rfl
  have hpok0 : goSlice pb (fpSize * 8 + 4 + 2 * c * fpSize)
      (fpSize * 8 + 4 + 2 * c * fpSize + fpSize) =
      Except.ok ((tail.drop (64 * c)).take 32) := by
    rw [goSlice_eq_ok _ _ _ (by rw [hfp]; omega) (by rw [hpblen, hfp]; omega), hfp]
    rw [show 32 * 8 + 4 + 2 * c * 32 + 32 - (32 * 8 + 4 + 2 * c * 32) = 32 from by omega]
    have h1 : pb.drop (32 * 8 + 4 + 2 * c * 32) = tail.drop (64 * c) := by
      have h2 : (32 * 8 + 4 + 2 * c * 32 : Nat) = (front ++ cnt).length + 64 * c := by
        simp [hfront, hcntlen]; omega
      rw [hpbdef, h2]
      exact List.drop_append (64 * c)
    rw [h1]
  have hpok1 : goSlice pb (fpSize * 8 + 4 + 2 * c * fpSize + fpSize)
      (fpSize * 8 + 4 + 2 * c * fpSize + 2 * fpSize) =
      Except.ok ((tail.drop (64 * c + 32)).take 32) := by
    rw [goSlice_eq_ok _ _ _ (by rw [hfp]; omega) (by rw [hpblen, hfp]; omega), hfp]
    rw [show 32 * 8 + 4 + 2 * c * 32 + 2 * 32 - (32 * 8 + 4 + 2 * c * 32 + 32) = 32 from by omega]
    have h1 : pb.drop (32 * 8 + 4 + 2 * c * 32 + 32) = tail.drop (64 * c + 32) := by
      have h2 : (32 * 8 + 4 + 2 * c * 32 + 32 : Nat) = (front ++ cnt).length + (64 * c + 32) := by
        simp [hfront, hcntlen]; omega
      rw [hpbdef, h2]
      exact List.drop_append (64 * c + 32)
    rw [h1]
  have hcast : (k : Int) - (n : Int) = ((c : Nat) : Int) := by
    subst hk; push_cast; ring
  have halign : ¬ ((pub.drop 12).length % fpSize ≠ 0) := by
    rw [hbodylen, hfp]; simp [Nat.mul_mod_right]
  have hnb : (pub.drop 12).length / fpSize = n := by
    rw [hbodylen, hfp]; exact Nat.mul_div_cancel_left n (by norm_num)
  rw [hfp] at hinputs hproofs hcb hcomm hpok0 hpok1
  have hmod : 32 * n % 32 = 0 := Nat.mul_mod_right 32 n
  have hdiv : 32 * n / 32 = n := Nat.mul_div_cancel_left n (by norm_num)
  unfold encodeGroth16
  rw [hslice1]
  simp only [hbodylen, hfp, hmod, hdiv, ne_eq, not_true_eq_false, not_false_eq_true,
    if_true, if_false, ite_false, ite_true]
  simp only [hinputs, hproofs, hcb, hbe, hcast, Int.toNat_natCast,
    not_true_eq_false, if_false, ite_false, hcomm, hpok0, hpok1]

/-- When the public-witness buffer is well shaped but the 4-byte big-endian
count embedded at offset 256 of the proof buffer differs from
`vkNbPublicWitness - nbPublicInputs`, the encoder panics with the source's
message, before any output is produced. -/
theorem encodeGroth16_count_mismatch (front cnt tail pub : List Nat) (n k : Nat)
    (hfront : front.length = 256) (hcntlen : cnt.length = 4)
    (hpub : pub.length = 12 + 32 * n)
    (hne : ((beBytesToNat cnt : Nat) : Int) ≠ (k : Int) - (n : Int)) :
    encodeGroth16 (front ++ cnt ++ tail) pub n k =
      Except.error "commitmentCount != .NbCommitments" := by
  have hfp : fpSize = 32 := rfl
  set pb := front ++ cnt ++ tail with hpbdef
  have hassoc : pb = front ++ (cnt ++ tail) := by rw [hpbdef, List.append_assoc]
  have hpblen : pb.length = 260 + tail.length := by
    rw [hpbdef]; simp [hfront, hcntlen]; omega
  have h12 : (12 : Nat) ≤ pub.length := by omega
  have hslice1 : goSlice pub 12 pub.length = Except.ok (pub.drop 12) :=
    goSlice_tail pub 12 h12
  have hbodylen : (pub.drop 12).length = 32 * n := by
    rw [List.length_drop]; omega
  have hinputs : mapE (fun i => Except.map ox
      (goSlice (pub.drop 12) (fpSize * i) (fpSize * (i + 1)))) (List.range n) =
      Except.ok ((List.range n).map
        (fun i => ox (((pub.drop 12).drop (32 * i)).take 32))) := by
    apply mapE_eq_map
    intro i hi
    have hi' : i < n := List.mem_range.mp hi
    have hb2 : fpSize * (i + 1) ≤ (pub.drop 12).length := by
      rw [hbodylen, hfp]; omega
    rw [goSlice_eq_ok _ _ _ (by rw [hfp]; omega) hb2, hfp,
      show 32 * (i + 1) - 32 * i = 32 from by omega]
    rfl
  have hproofs : mapE (fun i => Except.map ox
      (goSlice pb (fpSize * i) (fpSize * (i + 1)))) (List.range 8) =
      Except.ok ((List.range 8).map
        (fun i => ox ((front.drop (32 * i)).take 32))) := by
    apply mapE_eq_map
    intro i hi
    have hi' : i < 8 := List.mem_range.mp hi
    have hb2 : fpSize * (i + 1) ≤ pb.length := by rw [hpblen, hfp]; omega
    rw [goSlice_eq_ok _ _ _ (by rw [hfp]; omega) hb2, hfp,
      show 32 * (i + 1) - 32 * i = 32 from by omega]
    have h1 : pb.drop (32 * i) = front.drop (32 * i) ++ (cnt ++ tail) := by
      rw [hassoc]
      exact List.drop_append_of_le_length (by omega)
    rw [h1, List.take_append_of_le_length (by rw [List.length_drop, hfront]; omega)]
    rfl
  have hcb : goSlice pb (fpSize * 8) (fpSize * 8 + 4) = Except.ok cnt := by
    rw [goSlice_eq_ok _ _ _ (by omega) (by rw [hpblen, hfp]; omega), hfp]
    rw [show 32 * 8 + 4 - 32 * 8 = 4 from by omega]
    have h1 : pb.drop (32 * 8) = cnt ++ tail := by
      rw [hassoc]
      rw [show (32 * 8 : Nat) = front.length from by rw [hfront]]
      exact List.drop_left front (cnt ++ tail)
    rw [h1, List.take_left' hcntlen]
  have hmod : 32 * n % 32 = 0 := Nat.mul_mod_right 32 n
  have hdiv : 32 * n / 32 = n := Nat.mul_div_cancel_left n (by norm_num)
  rw [hfp] at hinputs hproofs hcb
  unfold encodeGroth16
  rw [hslice1]
  simp only [hbodylen, hfp, hmod, hdiv, ne_eq, not_true_eq_false, not_false_eq_true,
    if_true, if_false, ite_false, ite_true]
  simp only [hinputs, hproofs, hcb]
  rw [if_pos hne]

/-- A public-witness buffer whose length after the 12-byte header is not a
multiple of 32 makes the commitment-aware encoder panic with the source's
alignment message. -/
theorem encodeGroth16_misaligned (pb pub : List Nat) (n k : Nat)
    (h12 : 12 ≤ pub.length) (hmis : (pub.length - 12) % 32 ≠ 0) :
    encodeGroth16 pb pub n k = Except.error "inputBytes mod 32 !=0" := by
  have hslice1 := goSlice_tail pub 12 h12
  have hbodylen : (pub.drop 12).length = pub.length - 12 := List.length_drop 12 pub
  unfold encodeGroth16
  rw [hslice1]
  simp only [hbodylen, show fpSize = 32 from rfl]
  rw [if_pos hmis]

/-- A well-aligned public-witness buffer whose element count differs from
the declared public-input count makes the commitment-aware encoder panic
with the source's count message. -/
theorem encodeGroth16_count_check (pb pub : List Nat) (n k : Nat)
    (h12 : 12 ≤ pub.length) (hal : (pub.length - 12) % 32 = 0)
    (hne : (pub.length - 12) / 32 ≠ n) :
    encodeGroth16 pb pub n k = Except.error "nbInputs != nbPublicInputs" := by
  have hslice1 := goSlice_tail pub 12 h12
  have hbodylen : (pub.drop 12).length = pub.length - 12 := List.length_drop 12 pub
  unfold encodeGroth16
  rw [hslice1]
  simp only [hbodylen, show fpSize = 32 from rfl, hal, ne_eq, not_true_eq_false,
    not_false_eq_true, if_true, if_false, ite_false, ite_true]
  rw [if_pos hne]

/-- The simplified encoder succeeds on any proof buffer of at least 256
bytes, deriving the input count from the buffer length alone and emitting
the 32-byte slices in order. -/
theorem encodeGroth16Simple_success (pb hdr body : List Nat)
    (hpb : 256 ≤ pb.length) (hhdr : hdr.length = 12) :
    encodeGroth16Simple pb (hdr ++ body) = Except.ok
      { proof := (List.range 8).map (fun i => ox ((pb.drop (32 * i)).take 32)),
        inputs := (List.range (body.length / 32)).map
          (fun i => ox ((body.drop (32 * i)).take 32)) } := by
  have hfp : fpSize = 32 := rfl
  have hproofs : mapE (fun i => Except.map ox
      (goSlice pb (i * fpSize) ((i + 1) * fpSize))) (List.range 8) =
      Except.ok ((List.range 8).map
        (fun i => ox ((pb.drop (32 * i)).take 32))) := by
    apply mapE_eq_map
    intro i hi
    have hi' : i < 8 := List.mem_range.mp hi
    have hb2 : (i + 1) * fpSize ≤ pb.length := by rw [hfp]; omega
    rw [goSlice_eq_ok _ _ _ (by rw [hfp]; omega) hb2, hfp,
      show (i + 1) * 32 - i * 32 = 32 from by omega,
      show i * 32 = 32 * i from by ring]
    rfl
  have h12 : 12 ≤ (hdr ++ body).length := by simp [hhdr]
  have hslice1 : goSlice (hdr ++ body) 12 (hdr ++ body).length =
      Except.ok body := by
    rw [goSlice_tail _ 12 h12, List.drop_left' hhdr]
  have hinputs : mapE (fun i => Except.map ox
      (goSlice body (i * fpSize) ((i + 1) * fpSize)))
      (List.range (body.length / fpSize)) =
      Except.ok ((List.range (body.length / 32)).map
        (fun i => ox ((body.drop (32 * i)).take 32))) := by
    rw [hfp]
    apply mapE_eq_map
    intro i hi
    have hi' : i < body.length / 32 := List.mem_range.mp hi
    have hb2 : (i + 1) * 32 ≤ body.length := by
      have := Nat.div_mul_le_self body.length 32
      have h1 : (i + 1) ≤ body.length / 32 := hi'
      calc (i + 1) * 32 ≤ body.length / 32 * 32 := Nat.mul_le_mul_right 32 h1
        _ ≤ body.length := Nat.div_mul_le_self body.length 32
    rw [goSlice_eq_ok _ _ _ (by omega) hb2,
      show (i + 1) * 32 - i * 32 = 32 from by omega,
      show i * 32 = 32 * i from by ring]
    rfl
  rw [hfp] at hinputs
  unfold encodeGroth16Simple
  rw [hproofs, hslice1]
  simp only [hfp, hinputs]

/-- Inversion for `goSlice`: success forces the bounds to be in range and
pins down the value. -/
theorem goSlice_ok_elim (b : List Nat) (lo hi : Nat) (val : List Nat)
    (h : goSlice b lo hi = Except.ok val) :
    lo ≤ hi ∧ hi ≤ b.length ∧ val = (b.drop lo).take (hi - lo) := by
  unfold goSlice at h
  split at h
  · rename_i hcond
    cases h
    exact ⟨hcond.1, hcond.2, rfl⟩
  · simp at h

/-- The same invariant for the simplified encoder. -/
theorem encodeGroth16Simple_ok_proof (pb pub : List Nat) (d : Groth16ProofSimple)
    (h : encodeGroth16Simple pb pub = Except.ok d) :
    d.proof = (List.range 8).map (fun i => ox ((pb.drop (32 * i)).take 32)) := by
  have hfp : fpSize = 32 := rfl
  unfold encodeGroth16Simple at h
  split at h
  · simp at h
  · rename_i proofs heq8
    split at h
    · simp at h
    · rename_i body hbody
      simp only [ne_eq] at h
      split at h
      · simp at h
      · simp only [Except.ok.injEq] at h
        subst h
        simp only []
        have hlen := mapE_ok_length _ _ _ heq8
        apply List.ext_getElem
        · simp [hlen]
        · intro i h1 h2
          have hi8 : i < 8 := by
            simp only [List.length_range] at hlen; omega
          have hget := mapE_ok_getElem _ _ _ heq8 i
            (by simpa using hi8) (by omega)
          simp only [List.getElem_range] at hget
          cases hsl : goSlice pb (i * fpSize) ((i + 1) * fpSize) with
          | error e => rw [hsl] at hget; simp [Except.map] at hget
          | ok val =>
            rw [hsl] at hget
            simp only [Except.map, Except.ok.injEq] at hget
            obtain ⟨-, -, hval⟩ := goSlice_ok_elim _ _ _ _ hsl
            rw [List.getElem_map, List.getElem_range, ← hget, hval, hfp]
            rw [show (i + 1) * 32 - i * 32 = 32 from by omega,
              show i * 32 = 32 * i from by ring]

/-- Whatever else happens, a successful run of the commitment-aware encoder
has read its 8 proof elements as the consecutive 32-byte slices at offsets
0, 32, ..., 224 of the proof buffer, in buffer order. -/
theorem encodeGroth16_ok_proof (pb pub : List Nat) (n k : Nat) (d : Groth16Proof)
    (h : encodeGroth16 pb pub n k = Except.ok d) :
    d.proof = (List.range 8).map (fun i => ox ((pb.drop (32 * i)).take 32)) := by
  have hfp : fpSize = 32 := rfl
  unfold encodeGroth16 at h
  simp only [ne_eq] at h
  split at h
  · simp at h
  · split at h
    · simp at h
    · split at h
      · simp at h
      · split at h
        · simp at h
        · split at h
          · simp at h
          · rename_i proofs heq8
            split at h
            · simp at h
            · split at h
              · simp at h
              · split at h
                · simp at h
                · split at h
                  · rename_i pok0 pok1 hp0 hp1
                    simp only [Except.ok.injEq] at h
                    subst h
                    simp only []
                    have hlen := mapE_ok_length _ _ _ heq8
                    apply List.ext_getElem
                    · simp [hlen]
                    · intro i h1 h2
                      have hi8 : i < 8 := by
                        simp only [List.length_range] at hlen; omega
                      have hget := mapE_ok_getElem _ _ _ heq8 i
                        (by simpa using hi8) (by omega)
                      simp only [List.getElem_range] at hget
                      cases hsl : goSlice pb (fpSize * i) (fpSize * (i + 1)) with
                      | error e => rw [hsl] at hget; simp [Except.map] at hget
                      | ok val =>
                        rw [hsl] at hget
                        simp only [Except.map, Except.ok.injEq] at hget
                        obtain ⟨-, -, hval⟩ := goSlice_ok_elim _ _ _ _ hsl
                        rw [List.getElem_map, List.getElem_range, ← hget, hval, hfp]
                        rw [show 32 * (i + 1) - 32 * i = 32 from by omega]
                  · simp at h
                  · simp at h

/-! Concrete environments for witnesses, and the claim theorems. -/

/-- A concrete oracle environment in which every external operation
succeeds: 0 public inputs, 0 commitments, well-formed buffers. -/
def envOk : ProverEnv :=
  { loadErr := none, compileErr := none, dummySetupErr := none,
    setupErr := none, realVkNbPublicWitness := 0, exportErr := none,
    witnessErr := none, proveErr := none, publicErr := none,
    nbPublicInputs := 0, marshalSolidityOk := true,
    proofBytes := List.replicate 256 0 ++ [0, 0, 0, 0] ++ List.replicate 64 0,
    marshalBinaryErr := none, pubWitnessBytes := List.replicate 12 0,
    jsonErr := none, writeErr := none }

/-- C1: in the commitment-aware layout the encoder reads a 4-byte
big-endian commitment count at byte offset 8·W (W = 32) of the serialized
proof; if that count differs from numOfCommitments =
VerifyingKey.NbPublicWitness - nbPublicInputs, encoding panics (fatal) and
no output file is written. -/
theorem c1_count_mismatch_fatal_no_output
    (k : Nat) (env : ProverEnv) (front tail : List Nat) (b0 b1 b2 b3 : Nat)
    (hms : env.marshalSolidityOk = true)
    (hmb : env.marshalBinaryErr = none)
    (hpb : env.proofBytes = front ++ [b0, b1, b2, b3] ++ tail)
    (hfront : front.length = 256)
    (hpub : env.pubWitnessBytes.length = 12 + 32 * env.nbPublicInputs)
    (hne : ((b0 * 2 ^ 24 + b1 * 2 ^ 16 + b2 * 2 ^ 8 + b3 : Nat) : Int) ≠
      (k : Int) - (env.nbPublicInputs : Int)) :
    (writeProofModel (some k) true env).written = none ∧
    (writeProofModel (some k) true env).persistReached = false ∧
    (writeProofModel (some k) true env).term =
      RunTerm.panicked "commitmentCount != .NbCommitments" := by
  have hbe : beBytesToNat [b0, b1, b2, b3] =
      b0 * 2 ^ 24 + b1 * 2 ^ 16 + b2 * 2 ^ 8 + b3 := by
    simp [beBytesToNat]; ring
  have henc := encodeGroth16_count_mismatch front [b0, b1, b2, b3] tail
    env.pubWitnessBytes env.nbPublicInputs k hfront (by simp) hpub
    (by rw [hbe]; exact hne)
  rw [← hpb] at henc
  unfold writeProofModel
  refine ⟨?_, ?_, ?_⟩ <;> simp [hms, hmb, henc]

def envC1 : ProverEnv :=
  { envOk with proofBytes := List.replicate 256 0 ++ [0, 0, 0, 1] ++ [] }

set_option maxRecDepth 10000 in
/-- Witness for C1 at a concrete input: count byte 1 against
numOfCommitments = 0 - 0 = 0. -/
theorem c1_witness :
    (writeProofModel (some 0) true envC1).written = none ∧
    (writeProofModel (some 0) true envC1).persistReached = false ∧
    (writeProofModel (some 0) true envC1).term =
      RunTerm.panicked "commitmentCount != .NbCommitments" :=
  c1_count_mismatch_fatal_no_output 0 envC1 (List.replicate 256 0) [] 0 0 0 1
    rfl rfl rfl (by decide) (by decide) (by decide)

set_option maxRecDepth 10000 in
/-- C2 counterexample: the claim says EVERY variant rejects a misaligned
public-witness buffer; the simplified variant accepts a 13-byte buffer
(1 byte after the 12-byte header, not a multiple of 32) and silently
truncates it to zero inputs. -/
theorem c2_counterexample :
    encodeGroth16Simple (List.replicate 256 0) (List.replicate 13 0) =
      Except.ok { proof := List.replicate 8 (ox (List.replicate 32 0)),
                  inputs := [] } ∧
    ((List.replicate 13 (0 : Nat)).length - 12) % 32 ≠ 0 := by
  constructor
  · rfl
  · decide

/-- C2 amended: the commitment-aware variant checks that the byte length
of the public-witness buffer after the 12-byte header is a multiple of
W = 32 and panics on a misaligned buffer before emitting anything; the
simplified variant performs no such check and silently truncates, emitting
one input per full 32-byte chunk. -/
theorem c2_alignment_check_commitment_variant_only
    (pb pub : List Nat) (n k : Nat) (h12 : 12 ≤ pub.length)
    (hmis : (pub.length - 12) % 32 ≠ 0) :
    encodeGroth16 pb pub n k = Except.error "inputBytes mod 32 !=0" ∧
    (∀ pb2 hdr body : List Nat, 256 ≤ pb2.length → hdr.length = 12 →
      ∃ d, encodeGroth16Simple pb2 (hdr ++ body) = Except.ok d ∧
        d.inputs.length = body.length / 32) := by
  constructor
  · exact encodeGroth16_misaligned pb pub n k h12 hmis
  · intro pb2 hdr body hpb2 hhdr
    exact ⟨_, encodeGroth16Simple_success pb2 hdr body hpb2 hhdr, by simp⟩

set_option maxRecDepth 10000 in
/-- Witness for C2: a 13-byte buffer is rejected by the commitment-aware
encoder, while the simplified encoder truncates a 33-byte body to 1 input. -/
theorem c2_witness :
    encodeGroth16 (List.replicate 256 0) (List.replicate 13 0) 0 0 =
      Except.error "inputBytes mod 32 !=0" ∧
    (∀ pb2 hdr body : List Nat, 256 ≤ pb2.length → hdr.length = 12 →
      ∃ d, encodeGroth16Simple pb2 (hdr ++ body) = Except.ok d ∧
        d.inputs.length = body.length / 32) :=
  c2_alignment_check_commitment_variant_only (List.replicate 256 0)
    (List.replicate 13 0) 0 0 (by decide) (by decide)

/-- Total byte length of a list of 32-byte big-endian elements. -/
theorem flatten_map_beBytes_length (v : List Nat) :
    ((v.map (natToBeBytes 32)).flatten).length = 32 * v.length := by
  induction v with
  | nil => simp
  | cons x xs ih => simp [ih, natToBeBytes_length]; ring

set_option maxRecDepth 10000 in
/-- C3 counterexample: the claim says the encoder checks the decoded
element count against the declared public-partition size; the simplified
variant receives no declared size at all and happily emits 2 inputs from a
2-element buffer, so a Witness declaring 1 public input whose marshalled
buffer carries 2 elements is encoded without any rejection. -/
theorem c3_counterexample :
    (encodeGroth16Simple (List.replicate 256 0)
        (List.replicate 12 0 ++ List.replicate 64 1)).map
      (fun d => d.inputs.length) = Except.ok 2 ∧ (2 : Nat) ≠ 1 := by
  constructor
  · rfl
  · decide

/-- C3 amended: the commitment-aware variant panics when the decoded
element count differs from the declared public-input count; the simplified
variant performs no such check (its output is fully determined by the
buffer), but in both variants a buffer holding the 12-byte header followed
by the n 32-byte big-endian elements of v yields an inputs list of length
n that parses back to v in order. -/
theorem c3_count_check_and_roundtrip :
    (∀ pb pub : List Nat, ∀ n k : Nat, 12 ≤ pub.length →
      (pub.length - 12) % 32 = 0 → (pub.length - 12) / 32 ≠ n →
      encodeGroth16 pb pub n k = Except.error "nbInputs != nbPublicInputs") ∧
    (∀ v hdr pb : List Nat, hdr.length = 12 →
      (∀ x ∈ v, x < 256 ^ 32) → 256 ≤ pb.length →
      ∃ d, encodeGroth16Simple pb (hdr ++ (v.map (natToBeBytes 32)).flatten) =
          Except.ok d ∧
        d.inputs.length = v.length ∧ d.inputs.map parseHex0x = v) ∧
    (∀ v hdr front tail : List Nat, ∀ c : Nat, hdr.length = 12 →
      (∀ x ∈ v, x < 256 ^ 32) → front.length = 256 → c < 256 ^ 4 →
      64 * c + 64 ≤ tail.length →
      ∃ d, encodeGroth16 (front ++ natToBeBytes 4 c ++ tail)
          (hdr ++ (v.map (natToBeBytes 32)).flatten) v.length (v.length + c) =
          Except.ok d ∧
        d.inputs.length = v.length ∧ d.inputs.map parseHex0x = v) := by
  refine ⟨?_, ?_, ?_⟩
  · exact fun pb pub n k h1 h2 h3 => encodeGroth16_count_check pb pub n k h1 h2 h3
  · intro v hdr pb hhdr hv hpb
    have hbl := flatten_map_beBytes_length v
    have hcnt : ((v.map (natToBeBytes 32)).flatten).length / 32 = v.length := by
      rw [hbl]; exact Nat.mul_div_cancel_left _ (by norm_num)
    refine ⟨_, encodeGroth16Simple_success pb hdr _ hpb hhdr, ?_, ?_⟩
    · simp only [List.length_map, List.length_range, hcnt]
    · simp only [hcnt]
      apply List.ext_getElem
      · simp
      · intro i h1 h2
        have hi : i < v.length := by simpa using h2
        simp only [List.getElem_map, List.getElem_range]
        rw [flatten_map_chunk 32 (fun x => natToBeBytes_length 32 x) v i hi]
        exact parseHex0x_ox_natToBeBytes _ (hv _ (v.getElem_mem hi))
  · intro v hdr front tail c hhdr hv hfront hc htail
    have hbl := flatten_map_beBytes_length v
    have hpub : (hdr ++ (v.map (natToBeBytes 32)).flatten).length =
        12 + 32 * v.length := by simp [hhdr, hbl]
    refine ⟨_, encodeGroth16_success front (natToBeBytes 4 c) tail
      (hdr ++ (v.map (natToBeBytes 32)).flatten) v.length c (v.length + c)
      hfront rfl hc hpub rfl htail, ?_, ?_⟩
    · simp
    · have hdrop : (hdr ++ (v.map (natToBeBytes 32)).flatten).drop 12 =
          (v.map (natToBeBytes 32)).flatten := List.drop_left' hhdr
      simp only [hdrop]
      apply List.ext_getElem
      · simp
      · intro i h1 h2
        have hi : i < v.length := by simpa using h2
        simp only [List.getElem_map, List.getElem_range]
        rw [flatten_map_chunk 32 (fun x => natToBeBytes_length 32 x) v i hi]
        exact parseHex0x_ox_natToBeBytes _ (hv _ (v.getElem_mem hi))

set_option maxRecDepth 10000 in
/-- Witness for C3: a 44-byte buffer (1 element) against a declared count
of 2 is rejected by the commitment-aware encoder; the buffer of v = [5]
round-trips through both encoder variants. -/
theorem c3_witness :
    encodeGroth16 (List.replicate 256 0) (List.replicate 44 0) 2 2 =
      Except.error "nbInputs != nbPublicInputs" ∧
    (∃ d, encodeGroth16Simple (List.replicate 256 0)
        (List.replicate 12 0 ++ (([5] : List Nat).map (natToBeBytes 32)).flatten) =
        Except.ok d ∧ d.inputs.length = ([5] : List Nat).length ∧
        d.inputs.map parseHex0x = [5]) ∧
    (∃ d, encodeGroth16 (List.replicate 256 0 ++ natToBeBytes 4 0 ++
          List.replicate 64 0)
        (List.replicate 12 0 ++ (([5] : List Nat).map (natToBeBytes 32)).flatten)
        (([5] : List Nat).length) (([5] : List Nat).length + 0) =
        Except.ok d ∧ d.inputs.length = ([5] : List Nat).length ∧
        d.inputs.map parseHex0x = [5]) :=
  ⟨c3_count_check_and_roundtrip.1 (List.replicate 256 0) (List.replicate 44 0)
      2 2 (by decide) (by decide) (by decide),
    c3_count_check_and_roundtrip.2.1 [5] (List.replicate 12 0)
      (List.replicate 256 0) (by decide) (by decide) (by decide),
    c3_count_check_and_roundtrip.2.2 [5] (List.replicate 12 0)
      (List.replicate 256 0) (List.replicate 64 0) 0 (by decide) (by decide)
      (by decide) (by decide) (by decide)⟩

/-- C4: in the commitment-aware layout with commitment count c, the encoder
reads 2c field elements (an X,Y pair per commitment) starting right after
the 4-byte count, followed by exactly 2 more field elements for the
proof-of-knowledge pair, so commitments has length 2c and commitment_pok
has length 2. -/
theorem c4_commitment_section_shape (front tail pub : List Nat) (n c k : Nat)
    (hfront : front.length = 256) (hc : c < 256 ^ 4)
    (hpub : pub.length = 12 + 32 * n) (hk : k = n + c)
    (htail : 64 * c + 64 ≤ tail.length) :
    ∃ d, encodeGroth16 (front ++ natToBeBytes 4 c ++ tail) pub n k =
        Except.ok d ∧
      d.commitments.length = 2 * c ∧
      d.commitmentPok.length = 2 ∧
      d.commitments = (List.range (2 * c)).map
        (fun i => ox ((tail.drop (32 * i)).take 32)) ∧
      d.commitmentPok = [ox ((tail.drop (64 * c)).take 32),
        ox ((tail.drop (64 * c + 32)).take 32)] := by
  refine ⟨_, encodeGroth16_success front (natToBeBytes 4 c) tail pub n c k
    hfront rfl hc hpub hk htail, ?_, rfl, rfl, rfl⟩
  simp

set_option maxRecDepth 10000 in
/-- Witness for C4, the spec's Scenario B: NbPublicWitness = 5, 3 public
inputs, hence c = 2: 4 commitment strings and 2 proof-of-knowledge
strings. -/
theorem c4_witness :
    ∃ d, encodeGroth16 (List.replicate 256 0 ++ natToBeBytes 4 2 ++
        List.replicate 192 0) (List.replicate 108 0) 3 5 = Except.ok d ∧
      d.commitments.length = 2 * 2 ∧
      d.commitmentPok.length = 2 ∧
      d.commitments = (List.range (2 * 2)).map
        (fun i => ox (((List.replicate 192 0).drop (32 * i)).take 32)) ∧
      d.commitmentPok = [ox (((List.replicate 192 0).drop (64 * 2)).take 32),
        ox (((List.replicate 192 0).drop (64 * 2 + 32)).take 32)] :=
  c4_commitment_section_shape (List.replicate 256 0) (List.replicate 192 0)
    (List.replicate 108 0) 3 2 5 (by decide) (by decide) (by decide)
    (by decide) (by decide)

set_option maxRecDepth 10000 in
/-- C5 failing input: dummy setup together with a configured contract
path. The source creates the contract file via os.Create and only then
calls ExportSolidity on the verifying key, which under dummy setup is the
nil interface: the export is attempted (and an artifact file is created)
and the run crashes, instead of being rejected before the attempt. -/
theorem c5_dummy_contract_export_attempted :
    (runProverModel "in" "out" "contract.sol" false true envOk).contractFileCreated
      = true ∧
    (runProverModel "in" "out" "contract.sol" false true envOk).term =
      RunTerm.panicked "nil verifying key" ∧
    Stage.contractExport ∈
      (runProverModel "in" "out" "contract.sol" false true envOk).stages := by
  refine ⟨rfl, rfl, ?_⟩
  decide

def envWitnessFail : ProverEnv := { envOk with witnessErr := some "assignment error" }

set_option maxRecDepth 10000 in
/-- C6 failing input: witness derivation fails. The source discards the
NewWitness error (witness, _ :=) and proceeds to call groth16.Prove with
the nil witness: the run reaches the proving stage instead of terminating
before it. -/
theorem c6_witness_error_reaches_proving :
    Stage.prove ∈ (runProverModel "in" "out" "" false false envWitnessFail).stages ∧
    (runProverModel "in" "out" "" false false envWitnessFail).term =
      RunTerm.panicked "nil witness" := by
  refine ⟨?_, rfl⟩
  decide

/-- C7: in both encoder variants a successful encoding has decoded the
first 8 elements of the proof buffer (offsets 0 to 8·W) as the A/B/C
coordinates, and the emitted proof list is exactly those 8 strings in
buffer order, each a lowercase hex string with the 0x marker. -/
theorem c7_first_eight_proof_elements (pb pub : List Nat) (n k : Nat)
    (dC : Groth16Proof) (dS : Groth16ProofSimple) :
    (encodeGroth16 pb pub n k = Except.ok dC →
      dC.proof = (List.range 8).map (fun i => ox ((pb.drop (32 * i)).take 32)) ∧
      dC.proof.length = 8 ∧
      ∀ s ∈ dC.proof, s.data.take 2 = ['0', 'x'] ∧
        ∀ ch ∈ s.data.drop 2, isLowerHexDigit ch = true) ∧
    (encodeGroth16Simple pb pub = Except.ok dS →
      dS.proof = (List.range 8).map (fun i => ox ((pb.drop (32 * i)).take 32)) ∧
      dS.proof.length = 8 ∧
      ∀ s ∈ dS.proof, s.data.take 2 = ['0', 'x'] ∧
        ∀ ch ∈ s.data.drop 2, isLowerHexDigit ch = true) := by
  constructor
  · intro h
    have hp := encodeGroth16_ok_proof pb pub n k dC h
    refine ⟨hp, by simp [hp], ?_⟩
    intro s hs
    rw [hp] at hs
    simp only [List.mem_map, List.mem_range] at hs
    obtain ⟨i, -, rfl⟩ := hs
    exact ox_shape _
  · intro h
    have hp := encodeGroth16Simple_ok_proof pb pub dS h
    refine ⟨hp, by simp [hp], ?_⟩
    intro s hs
    rw [hp] at hs
    simp only [List.mem_map, List.mem_range] at hs
    obtain ⟨i, -, rfl⟩ := hs
    exact ox_shape _

/-- The concrete output record of the commitment-aware encoder on the
all-zero well-formed buffers of envOk. -/
def dOkC : Groth16Proof :=
  { proof := List.replicate 8 (ox (List.replicate 32 0)), inputs := [],
    commitments := [],
    commitmentPok := [ox (List.replicate 32 0), ox (List.replicate 32 0)] }

/-- The concrete output record of the simplified encoder on the same
buffers. -/
def dOkS : Groth16ProofSimple :=
  { proof := List.replicate 8 (ox (List.replicate 32 0)), inputs := [] }

set_option maxRecDepth 10000 in
/-- Witness for C7 on the concrete all-zero buffers. -/
theorem c7_witness :
    (dOkC.proof = (List.range 8).map
        (fun i => ox ((envOk.proofBytes.drop (32 * i)).take 32)) ∧
      dOkC.proof.length = 8 ∧
      ∀ s ∈ dOkC.proof, s.data.take 2 = ['0', 'x'] ∧
        ∀ ch ∈ s.data.drop 2, isLowerHexDigit ch = true) ∧
    (dOkS.proof = (List.range 8).map
        (fun i => ox ((envOk.proofBytes.drop (32 * i)).take 32)) ∧
      dOkS.proof.length = 8 ∧
      ∀ s ∈ dOkS.proof, s.data.take 2 = ['0', 'x'] ∧
        ∀ ch ∈ s.data.drop 2, isLowerHexDigit ch = true) :=
  ⟨(c7_first_eight_proof_elements envOk.proofBytes envOk.pubWitnessBytes 0 0
      dOkC dOkS).1 (by rfl),
    (c7_first_eight_proof_elements envOk.proofBytes envOk.pubWitnessBytes 0 0
      dOkC dOkS).2 (by rfl)⟩

def envLoadFail : ProverEnv :=
  { envOk with loadErr := some "no such file or directory" }

set_option maxRecDepth 10000 in
/-- C8 counterexample: with both required paths empty, no configuration
check fires; the run enters the loading stage (a pipeline stage) and dies
there, instead of being rejected as a configuration error before any stage
runs. -/
theorem c8_counterexample :
    (mainModel "" "" "" false false envLoadFail).stages = [Stage.load] ∧
    (mainModel "" "" "" false false envLoadFail).stages ≠ [] := by
  refine ⟨rfl, ?_⟩
  decide

/-- C8 amended: missing required paths are never validated; every run,
whatever its configuration, proceeds straight into the pipeline, and the
first stage entered is loading. -/
theorem c8_no_config_validation (outContract : String) (p d : Bool)
    (env : ProverEnv) :
    (mainModel "" "" outContract p d env).stages.head? = some Stage.load := by
  unfold mainModel runProverModel afterSetupModel assembleRun writeProofModel
  repeat first | rfl | (exact absurd rfl (by assumption)) | split | simp only []

set_option maxRecDepth 10000 in
/-- Witness for C8 on the all-success environment. -/
theorem c8_witness :
    (mainModel "" "" "" false false envOk).stages.head? = some Stage.load :=
  c8_no_config_validation "" false false envOk

/-- C9: if writing the final output artifact fails, the failure is printed
with the source's "Error writing to file:" message — never silently
swallowed. -/
theorem c9_write_failure_logged (k : Nat) (env : ProverEnv) (e : String)
    (d : Groth16Proof)
    (hms : env.marshalSolidityOk = true) (hmb : env.marshalBinaryErr = none)
    (hjson : env.jsonErr = none) (hwr : env.writeErr = some e)
    (henc : encodeGroth16 env.proofBytes env.pubWitnessBytes
      env.nbPublicInputs k = Except.ok d) :
    ("Error writing to file: " ++ e) ∈ (writeProofModel (some k) true env).logs ∧
    (writeProofModel (some k) true env).persistReached = true := by
  unfold writeProofModel
  simp [hms, hmb, hjson, hwr, henc]

def envWriteFail : ProverEnv := { envOk with writeErr := some "disk full" }

set_option maxRecDepth 10000 in
/-- Witness for C9 at a concrete failing write. -/
theorem c9_witness :
    ("Error writing to file: " ++ "disk full") ∈
      (writeProofModel (some 0) true envWriteFail).logs ∧
    (writeProofModel (some 0) true envWriteFail).persistReached = true :=
  c9_write_failure_logged 0 envWriteFail "disk full" dOkC rfl rfl rfl rfl (by rfl)

/-- C10: under dummy setup the verifying key is never assigned; the
encoding stage dereferences it unconditionally (NbPublicWitness), so no
dummy-mode run ever records a written output file, and with every external
call succeeding and no contract path configured the run still panics at
the encoding stage on the absent key. -/
theorem c10_dummy_mode_never_writes_output (inDir outProof outContract : String)
    (p : Bool) (env : ProverEnv) :
    (runProverModel inDir outProof outContract p true env).outFileWritten = none ∧
    (env.loadErr = none → env.compileErr = none → env.dummySetupErr = none →
      env.witnessErr = none → env.proveErr = none → env.publicErr = none →
      (runProverModel inDir outProof "" p true env).term =
        RunTerm.panicked "nil verifying key" ∧
      Stage.encode ∈ (runProverModel inDir outProof "" p true env).stages) := by
  constructor
  · unfold runProverModel afterSetupModel assembleRun writeProofModel
    repeat first | rfl | (exact absurd rfl (by assumption)) | split | simp only []
  · intro h1 h2 h3 h4 h5 h6
    unfold runProverModel afterSetupModel assembleRun writeProofModel
    simp [h1, h2, h3, h4, h5, h6]

set_option maxRecDepth 10000 in
/-- Witness for C10 on the all-success environment. -/
theorem c10_witness :
    (runProverModel "in" "out" "" false true envOk).outFileWritten = none ∧
    ((runProverModel "in" "out" "" false true envOk).term =
      RunTerm.panicked "nil verifying key" ∧
    Stage.encode ∈ (runProverModel "in" "out" "" false true envOk).stages) :=
  ⟨(c10_dummy_mode_never_writes_output "in" "out" "" false envOk).1,
    (c10_dummy_mode_never_writes_output "in" "out" "" false envOk).2
      rfl rfl rfl rfl rfl rfl⟩

end GnarkProver
